import Mathlib

/-!
Shallow embedding of the auto-gradle-agent repair pipeline.

Source files embedded:
  * agent_app/core_agent.py  — apply_fix (oracle-response parsing and patch
    application), update_dependency (gradle.properties editing), run_gradle_build
  * agent_app/main.py        — fix_dependency (the bounded repair loop)
  * agent_app/llm_utils.py   — parse_gradle_error_for_llm (error extractor)
  * agent_app/gradle_utils.py — update_gradle_property

File contents are modelled as `List Char` (the decoded text of the file);
Python string primitives (`str.split`, `str.strip`, `str.splitlines`,
`readlines`, substring `in`) are given faithful executable counterparts.
The regular-expression operations are modelled for the concrete patterns the
source uses.  `\s`, `\d` and lowercasing are modelled on their ASCII parts.
-/

namespace AutoGradle

/-- Convert a Lean string literal to the `List Char` representation used
throughout the model. -/
def lstr (s : String) : List Char := s.toList

/-- Python whitespace class (ASCII part): the characters stripped by
`str.strip()` and matched by the regex class `\s`. -/
def isPySpace (c : Char) : Bool :=
  c == ' ' || c == '\t' || c == '\n' || c == '\r' || c == '\x0b' || c == '\x0c'

/-- `prefixOf p s` is true when `p` is a prefix of `s` (exact case). -/
def prefixOf : List Char → List Char → Bool
  | [], _ => true
  | _ :: _, [] => false
  | p :: ps, c :: cs => p == c && prefixOf ps cs

/-- Case-insensitive prefix test (ASCII lowercasing), used for the
`re.IGNORECASE` searches of the error extractor. -/
def prefixOfCI : List Char → List Char → Bool
  | [], _ => true
  | _ :: _, [] => false
  | p :: ps, c :: cs => p.toLower == c.toLower && prefixOfCI ps cs

/-- Suffix of `s` after the first occurrence of `pat`; `none` when `pat` does
not occur.  This is the building block for Python `str.split(pat)` indexing
and the substring operator `in`. -/
def afterFirst (pat : List Char) : List Char → Option (List Char)
  | [] => if prefixOf pat [] then some [] else none
  | c :: cs =>
    if prefixOf pat (c :: cs) then some (List.drop pat.length (c :: cs))
    else afterFirst pat cs

/-- Prefix of `s` before the first occurrence of `pat` (all of `s` when `pat`
does not occur). -/
def upToFirst (pat : List Char) : List Char → List Char
  | [] => []
  | c :: cs =>
    if prefixOf pat (c :: cs) then [] else c :: upToFirst pat cs

/-- Python substring test `pat in s`. -/
def containsSub (s pat : List Char) : Bool := (afterFirst pat s).isSome

/-- Python `s.strip()` (ASCII whitespace). -/
def pyStrip (s : List Char) : List Char :=
  ((s.dropWhile isPySpace).reverse.dropWhile isPySpace).reverse

/-- Python `s.split(sep)[1]`: the segment between the first and second
occurrence of `sep` (to the end when `sep` occurs once); `none` models the
`IndexError` raised when `sep` does not occur at all. -/
def pyIndex1 (sep s : List Char) : Option (List Char) :=
  match afterFirst sep s with
  | none => none
  | some rest => some (upToFirst sep rest)

/-- The inline oracle-response parser of `apply_fix`
(core_agent.py lines 211-213):

    error_type     = suggestion.split("ERROR_TYPE:")[1].split("\n")[0].strip()
    file_to_modify = suggestion.split("FILE_TO_MODIFY:")[1].split("\n")[0].strip()
    fix            = suggestion.split("FIX:")[1].strip()

`none` models the `IndexError` raised when a tag is missing (caught by the
surrounding `try`). -/
def parseSuggestion (s : List Char) :
    Option (List Char × List Char × List Char) :=
  match pyIndex1 (lstr "ERROR_TYPE:") s with
  | none => none
  | some seg1 =>
    match pyIndex1 (lstr "FILE_TO_MODIFY:") s with
    | none => none
    | some seg2 =>
      match pyIndex1 (lstr "FIX:") s with
      | none => none
      | some seg3 =>
        some (pyStrip (upToFirst [ '\n' ] seg1),
              pyStrip (upToFirst [ '\n' ] seg2),
              pyStrip seg3)

/-! ### The build.gradle replacement regex

core_agent.py line 230:

    re.sub(r'(implementation\s+\"[^"]+):\d+\.\d+\.\d+\"', fix, content)

The match extent at a given position is forced: the literal
`implementation`, a non-empty whitespace run, `"`, then the whole region up
to the next `"` (which must decompose as a non-empty quote-free part
followed by `:` digits `.` digits `.` digits).  `re.sub` (no count argument)
replaces every non-overlapping leftmost match.  The replacement string is
modelled literally (the source passes the oracle's fix text straight
through; backslash template escapes are out of scope of the claims). -/

/-- Length of the leading whitespace run (`\s+` greedy, followed in the
pattern by a non-whitespace character, so the run is exactly maximal). -/
def wsCount : List Char → Nat
  | [] => 0
  | c :: cs => if isPySpace c then wsCount cs + 1 else 0

/-- Check that the reversed quote-free region ends (in reading order) with
`:` digits `.` digits `.` digits, preceded by a non-empty `[^"]+` part. -/
def checkVer (rev : List Char) : Bool :=
  let d3 := rev.takeWhile Char.isDigit
  let r3 := rev.dropWhile Char.isDigit
  if d3.isEmpty then false else
  match r3 with
  | '.' :: r4 =>
    let d2 := r4.takeWhile Char.isDigit
    let r5 := r4.dropWhile Char.isDigit
    if d2.isEmpty then false else
    match r5 with
    | '.' :: r6 =>
      let d1 := r6.takeWhile Char.isDigit
      let r7 := r6.dropWhile Char.isDigit
      if d1.isEmpty then false else
      match r7 with
      | ':' :: r8 => !r8.isEmpty
      | _ => false
    | _ => false
  | _ => false

/-- The literal head of the replacement pattern. -/
def implLit : List Char := lstr "implementation"

/-- Length of the regex match starting exactly at the head of `s`
(`none` when the pattern does not match here). -/
def matchImplAt (s : List Char) : Option Nat :=
  if prefixOf implLit s then
    let rest := List.drop implLit.length s
    let w := wsCount rest
    if w = 0 then none else
    match List.drop w rest with
    | '"' :: rest2 =>
      match afterFirst [ '"' ] rest2 with
      | none => none
      | some _ =>
        let region := upToFirst [ '"' ] rest2
        if checkVer region.reverse then
          some (implLit.length + w + 1 + region.length + 1)
        else none
    | _ => none
  else none

/-- Does the pattern match anywhere in `s`? -/
def hasImplMatch : List Char → Bool
  | [] => false
  | c :: cs => (matchImplAt (c :: cs)).isSome || hasImplMatch cs

/-- `re.sub` over `s`: replace every non-overlapping leftmost match by
`repl`.  Fuel is the length of `s`; every step consumes at least one
character, so the fuel never runs out before the scan completes. -/
def reSubImplFuel (repl : List Char) : Nat → List Char → List Char
  | _, [] => []
  | 0, s => s
  | fuel + 1, c :: cs =>
    match matchImplAt (c :: cs) with
    | some n => repl ++ reSubImplFuel repl fuel (List.drop n (c :: cs))
    | none => c :: reSubImplFuel repl fuel cs

/-- `re.sub(r'(implementation\s+\"[^"]+):\d+\.\d+\.\d+\"', repl, s)`. -/
def reSubImpl (repl s : List Char) : List Char := reSubImplFuel repl s.length s

/-! ### Patch application (core_agent.py `apply_fix`, lines 200-250) -/

/-- The two configuration artifacts of a project directory; `none` means the
file does not exist on disk. -/
structure Files where
  buildGradle : Option (List Char)
  gradleProps : Option (List Char)
deriving DecidableEq, Repr

/-- `apply_fix` from core_agent.py, lines 209-250 (the parse-and-apply phase,
after the repository path has been resolved).  The oracle suggestion is the
first argument; the project files are threaded explicitly.  The returned
string is exactly the function's return value; the `except` clause is
modelled by the `none` branch of the parser (`IndexError` is the only
exception the modelled operations can raise). -/
def apply_fix (sugg : List Char) (files : Files) : List Char × Files :=
  match parseSuggestion sugg with
  | none => (lstr "Error applying fix: list index out of range", files)
  | some (_et, ftm, fix) =>
    if ftm = lstr "build.gradle" then
      match files.buildGradle with
      | some content =>
        if containsSub fix (lstr "implementation") then
          (lstr "Fix applied to build.gradle.",
           { files with buildGradle := some (content ++ '\n' :: (fix ++ [ '\n' ])) })
        else
          (lstr "Fix applied to build.gradle.",
           { files with buildGradle := some (reSubImpl fix content) })
      | none => (lstr "No fix applied.", files)
    else if ftm = lstr "gradle.properties" then
      match files.gradleProps with
      | some content =>
        (lstr "Fix applied to gradle.properties.",
         { files with gradleProps := some (content ++ '\n' :: (fix ++ [ '\n' ])) })
      | none => (lstr "No fix applied.", files)
    else (lstr "No fix applied.", files)

/-! ### Error extractor (llm_utils.py `parse_gradle_error_for_llm`, lines 19-50)

`re.findall` is modelled pattern by pattern.  Each of the six source
patterns is a (case-insensitive) literal, optionally followed by a lazy
`(.*?)` group, closed either by a second literal or by `(?:\n\n|\Z)`; for
all of them the leftmost-match/lazy-group semantics reduce to "find the
first occurrence of the opening literal, then the first occurrence of the
closing literal after it".  The fuel argument is the input length: every
successful match consumes at least the opening literal, so the fuel never
runs out before the scan is complete. -/

/-- First case-insensitive occurrence of `lit`: `(matched original text,
remainder after the match)`. -/
def findCIM (lit : List Char) : List Char → Option (List Char × List Char)
  | [] => if lit.isEmpty then some ([], []) else none
  | c :: cs =>
    if prefixOfCI lit (c :: cs) then
      some (List.take lit.length (c :: cs), List.drop lit.length (c :: cs))
    else findCIM lit cs

/-- First case-insensitive occurrence of `lit`: `(text before the
occurrence, remainder after it)`. -/
def findCI (lit : List Char) : List Char → Option (List Char × List Char)
  | [] => if lit.isEmpty then some ([], []) else none
  | c :: cs =>
    if prefixOfCI lit (c :: cs) then some ([], List.drop lit.length (c :: cs))
    else
      match findCI lit cs with
      | none => none
      | some (pre, rest) => some (c :: pre, rest)

/-- `re.findall` for a groupless literal pattern (pattern 1): the list of
matched texts of the non-overlapping occurrences. -/
def findallLit (lit : List Char) : Nat → List Char → List (List Char)
  | 0, _ => []
  | fuel + 1, s =>
    match findCIM lit s with
    | none => []
    | some (m, rest) => m :: findallLit lit fuel rest

/-- `re.findall` for `lit(.*?)stop` with `re.DOTALL` (patterns 2-4): the
list of group texts. -/
def findallBetween (lit stop : List Char) : Nat → List Char → List (List Char)
  | 0, _ => []
  | fuel + 1, s =>
    match findCI lit s with
    | none => []
    | some (_, rest) =>
      match findCI stop rest with
      | none => []
      | some (grp, rest2) => grp :: findallBetween lit stop fuel rest2

/-- `re.findall` for `lit(.*?)(?:\n\n|\Z)` with `re.DOTALL` (patterns 5-6):
when the closing pair is absent the lazy group runs to the end of the
string (`\Z`) and the scan stops there. -/
def findallToBreak (lit stop : List Char) : Nat → List Char → List (List Char)
  | 0, _ => []
  | fuel + 1, s =>
    match findCI lit s with
    | none => []
    | some (_, rest) =>
      match findCI stop rest with
      | none => [rest]
      | some (grp, rest2) => grp :: findallToBreak lit stop fuel rest2

/-- The `re.findall` results, one list per pattern, in the source's order
(llm_utils.py lines 25-32). -/
def matchesOf (s : List Char) : List (List (List Char)) :=
  [ findallLit (lstr "FAILURE: Build failed with an exception.") s.length s
  , findallBetween (lstr "* What went wrong:") (lstr "* Try:") s.length s
  , findallBetween (lstr "Could not resolve all dependencies for configuration ':") (lstr "'") s.length s
  , findallBetween (lstr "Execution failed for task '") (lstr "'") s.length s
  , findallToBreak (lstr "Caused by:") (lstr "\n\n") s.length s
  , findallToBreak (lstr "Error:") (lstr "\n\n") s.length s ]

/-- Worker for `"\n".join`: the tail elements, each preceded by `'\n'`. -/
def joinNLAux : List (List Char) → List Char
  | [] => []
  | x :: xs => '\n' :: (x ++ joinNLAux xs)

/-- Python `"\n".join`. -/
def joinNL : List (List Char) → List Char
  | [] => []
  | x :: xs => x ++ joinNLAux xs

/-- The inner accumulation loop (llm_utils.py lines 36-41): append each
stripped match, stopping once the joined excerpt exceeds 1500 characters. -/
def accumInner : List (List Char) → List (List Char) → List (List Char)
  | acc, [] => acc
  | acc, m :: ms =>
    let acc2 := acc ++ [pyStrip m]
    if 1500 < (joinNL acc2).length then acc2 else accumInner acc2 ms

/-- The outer pattern loop (llm_utils.py lines 35-43). -/
def accumOuter : List (List Char) → List (List (List Char)) → List (List Char)
  | acc, [] => acc
  | acc, l :: ls =>
    let acc2 := accumInner acc l
    if 1500 < (joinNL acc2).length then acc2 else accumOuter acc2 ls

/-- Python line-break characters recognised by `str.splitlines`. -/
def isLineBreak (c : Char) : Bool :=
  c == '\n' || c == '\r' || c == '\x0b' || c == '\x0c' ||
  c == '\x1c' || c == '\x1d' || c == '\x1e' || c == '\x85' ||
  c == '\u2028' || c == '\u2029'

/-- Worker for `str.splitlines` (accumulator holds the current line
reversed); `\r\n` counts as a single break. -/
def pySplitlinesAux : List Char → List Char → List (List Char)
  | acc, [] => if acc.isEmpty then [] else [acc.reverse]
  | acc, c :: cs =>
    if c == '\r' then
      match cs with
      | c2 :: cs2 =>
        if c2 == '\n' then acc.reverse :: pySplitlinesAux [] cs2
        else acc.reverse :: pySplitlinesAux [] (c2 :: cs2)
      | [] => acc.reverse :: pySplitlinesAux [] []
    else if isLineBreak c then acc.reverse :: pySplitlinesAux [] cs
    else pySplitlinesAux (c :: acc) cs

/-- Python `s.splitlines()`. -/
def pySplitlines (s : List Char) : List (List Char) := pySplitlinesAux [] s

/-- `parse_gradle_error_for_llm` from llm_utils.py, lines 19-50. -/
def parse_gradle_error_for_llm (s : List Char) : List Char :=
  let ex := accumOuter [] (matchesOf s)
  if ex.isEmpty then
    let lines := pySplitlines s
    if 50 < lines.length then joinNL (lines.drop (lines.length - 50)) else s
  else joinNL ex

/-! ### The two gradle.properties updaters

core_agent.py `update_dependency` (lines 126-150) and
gradle_utils.py `update_gradle_property` (lines 6-35) both edit a
`key=value` properties file.  File contents are the decoded text; `none`
means the file does not exist. -/

/-- The replacement/new line `f"{name}={value}\n"`. -/
def propLine (name value : List Char) : List Char :=
  name ++ '=' :: (value ++ [ '\n' ])

/-- Worker for Python `readlines` / file iteration: split keeping the
terminating `'\n'` on each line (text mode, universal newlines already
decoded). -/
def pyLinesAux : List Char → List Char → List (List Char)
  | acc, [] => if acc.isEmpty then [] else [acc.reverse]
  | acc, c :: cs =>
    if c == '\n' then (acc.reverse ++ [ '\n' ]) :: pyLinesAux [] cs
    else pyLinesAux (c :: acc) cs

/-- Python `f.readlines()` / `for line in f`. -/
def pyLines (s : List Char) : List (List Char) := pyLinesAux [] s

/-- The write loop of `update_dependency` (core_agent.py lines 133-143):
stream every line back, replacing each line whose stripped form starts with
`name=`, and append `"\n{name}={version}\n"` at the end when no line
matched. -/
def udGo (name version : List Char) : List (List Char) → Bool → List Char
  | [], updated => if updated then [] else '\n' :: propLine name version
  | l :: ls, updated =>
    if prefixOf (name ++ [ '=' ]) (pyStrip l) then
      propLine name version ++ udGo name version ls true
    else l ++ udGo name version ls updated

/-- The gradle.properties editing logic inside `update_dependency`
(core_agent.py lines 126-148), as a function from the previous file state to
the written file content. -/
def updateDependencyProps (content : Option (List Char)) (name version : List Char) :
    List Char :=
  match content with
  | none => propLine name version
  | some c => udGo name version (pyLines c) false

/-- The read loop of `update_gradle_property` (gradle_utils.py lines 16-27):
build the output line list and the `updated` flag. -/
def ugpGo (name value : List Char) (updated : Bool) :
    List (List Char) → List (List Char) × Bool
  | [] => ([], updated)
  | l :: ls =>
    if prefixOf (name ++ [ '=' ]) (pyStrip l) then
      let p := ugpGo name value true ls
      (propLine name value :: p.1, p.2)
    else
      let p := ugpGo name value updated ls
      (l :: p.1, p.2)

/-- Python `f.writelines` / concatenation of the line list. -/
def joinAll : List (List Char) → List Char
  | [] => []
  | x :: xs => x ++ joinAll xs

/-- `update_gradle_property` from gradle_utils.py, lines 6-35, as a function
from the previous file state to the written file content (the `IOError`
branch only affects the boolean return value, not the content written). -/
def update_gradle_property (content : Option (List Char)) (name value : List Char) :
    List Char :=
  match content with
  | none => propLine name value
  | some c =>
    let p := ugpGo name value false (pyLines c)
    joinAll (if p.2 then p.1 else p.1 ++ [ '\n' :: propLine name value ])

/-! ### Build runner and the repair orchestrator

core_agent.py `run_gradle_build` (lines 153-197) and main.py
`fix_dependency` (lines 16-88).  The child gradle process is external: its
successive results are an abstract stream indexed by invocation order, as
are the oracle's suggestion strings (`ask_llm_for_fix` is an external LLM
call whose raw text `apply_fix` receives). -/

/-- Outcome of one `subprocess.run` of the gradle wrapper. -/
inductive BuildOutcome where
  | ok
  | fail (out err : List Char)
  | fileNotFound (msg : List Char)
  | exc (msg : List Char)
deriving Repr

/-- `run_gradle_build` from core_agent.py, lines 160-197: the returned
string.  `wrapperExists` is whether `gradlew.bat` or `gradlew` is present in
the repository (lines 162-167). -/
def run_gradle_build (wrapperExists : Bool) (outcome : BuildOutcome) : List Char :=
  if !wrapperExists then lstr "Error: Gradle wrapper not found in the repository"
  else
    match outcome with
    | .ok => lstr "Build succeeded."
    | .fail o e => o ++ '\n' :: e
    | .fileNotFound m => lstr "Build error: Required file not found - " ++ m
    | .exc m => lstr "Build exception: " ++ m

/-- The request body of the `/fix` endpoint (main.py lines 11-14). -/
structure Request where
  dependencyName : List Char
  dependencyVersion : List Char

/-- The external environment of one `/fix` session: the freshly cloned
repository files, the wrapper's presence, and the abstract build / oracle
streams. -/
structure World where
  wrapperExists : Bool
  repoFiles : Files
  builds : Nat → BuildOutcome
  suggs : Nat → List Char

/-- Mutable state of the fix-attempt loop of `fix_dependency`
(main.py lines 48-73), with ghost counters for the number of `apply_fix`
invocations and build invocations performed. -/
structure LoopSt where
  files : Files
  buildResult : List Char
  lastFix : Option (List Char)
  buildIdx : Nat
  suggIdx : Nat
  fixCalls : Nat

/-- The `while attempt <= max_attempts` loop of main.py, lines 52-73, with
`max_attempts = 3` (line 48).  The first argument is structural fuel;
`fix_dependency` passes `4 = max_attempts + 1`, which the `attempt` guard
exhausts first, so the fuel arm is never the exit taken. -/
def fixLoop (w : World) : Nat → Nat → LoopSt → Nat × LoopSt
  | 0, attempt, st => (attempt, st)
  | fuel + 1, attempt, st =>
    if attempt ≤ 3 then
      let r := apply_fix (w.suggs st.suggIdx) st.files
      let st1 : LoopSt := { st with files := r.2, suggIdx := st.suggIdx + 1,
                                    fixCalls := st.fixCalls + 1 }
      if containsSub r.1 (lstr "Error applying fix")
          || containsSub r.1 (lstr "No fix applied") then
        (attempt, st1)
      else
        let st2 : LoopSt := { st1 with lastFix := some r.1 }
        let br := run_gradle_build w.wrapperExists (w.builds st2.buildIdx)
        let st3 : LoopSt := { st2 with buildResult := br, buildIdx := st2.buildIdx + 1 }
        if containsSub br (lstr "Build succeeded") then (attempt, st3)
        else fixLoop w fuel (attempt + 1) st3
    else (attempt, st)

/-- The response of `fix_dependency`, with the ghost `fixCalls` counter. -/
structure Response where
  fixAttempts : Nat
  finalBuild : List Char
  statusSuccess : Bool
  files : Files
  fixCalls : Nat

/-- The repository files right after main.py's step 2 (lines 33-39): the
fresh clone's files with `update_dependency` applied to gradle.properties. -/
def initialFiles (w : World) (req : Request) : Files :=
  { w.repoFiles with
    gradleProps := some (updateDependencyProps w.repoFiles.gradleProps
                          req.dependencyName req.dependencyVersion) }

/-- `fix_dependency` from main.py, lines 16-88: clone (fresh files),
update the dependency, run the initial build, and on failure run the
bounded fix-attempt loop. -/
def fix_dependency (w : World) (req : Request) : Response :=
  let files1 := initialFiles w req
  let br0 := run_gradle_build w.wrapperExists (w.builds 0)
  if !containsSub br0 (lstr "Build succeeded") then
    let r := fixLoop w 4 1
      { files := files1, buildResult := br0, lastFix := none,
        buildIdx := 1, suggIdx := 0, fixCalls := 0 }
    { fixAttempts := r.1 - 1, finalBuild := r.2.buildResult,
      statusSuccess := containsSub r.2.buildResult (lstr "Build succeeded"),
      files := r.2.files, fixCalls := r.2.fixCalls }
  else
    { fixAttempts := 0, finalBuild := br0, statusSuccess := true,
      files := files1, fixCalls := 0 }

/-! ### Auxiliary measures and concrete instances used in the analysis -/

/-- Length of the longest element of a list of strings. -/
def maxLen : List (List Char) → Nat
  | [] => 0
  | x :: xs => max x.length (maxLen xs)

/-- A well-formed suggestion targeting build.gradle whose fix text does not
contain the word `implementation` (so `apply_fix` takes the `re.sub`
branch). -/
def suggRM : List Char :=
  lstr "ERROR_TYPE: e\nFILE_TO_MODIFY: build.gradle\nFIX: foo"

/-- A build.gradle holding two occurrences of the replacement pattern. -/
def filesRM : Files :=
  ⟨some (lstr "implementation \"a.b:c:1.2.3\"\nimplementation \"d.e:f:4.5.6\"\n"), none⟩

/-- A build.gradle in which the replacement pattern does not occur. -/
def filesNoop : Files := ⟨some (lstr "nothing here\n"), none⟩

/-- A well-formed suggestion targeting gradle.properties (Append branch). -/
def suggAP : List Char :=
  lstr "ERROR_TYPE: e\nFILE_TO_MODIFY: gradle.properties\nFIX: foo=1"

/-- A project with an existing gradle.properties. -/
def filesAP : Files := ⟨none, some (lstr "a=b\n")⟩

/-- A request body used for concrete sessions. -/
def reqX : Request := ⟨lstr "spring.version", lstr "5.3.0"⟩

/-- A session environment whose repository has no gradle wrapper. -/
def wNoWrapper : World :=
  { wrapperExists := false, repoFiles := ⟨none, none⟩,
    builds := fun _ => .fail (lstr "boom") [], suggs := fun _ => lstr "nothing" }

/-- A session whose build fails and whose oracle answers with text carrying
none of the required tags. -/
def wMissingTag : World :=
  { wrapperExists := true, repoFiles := ⟨none, none⟩,
    builds := fun _ => .fail (lstr "boom") [], suggs := fun _ => lstr "nothing" }

/-- A session whose build fails and whose oracle answers with only a no-fix
sentinel in the fix-content position. -/
def wNoFixResp : World :=
  { wrapperExists := true, repoFiles := ⟨none, none⟩,
    builds := fun _ => .fail (lstr "boom") [], suggs := fun _ => lstr "FIX: NO_FIX" }

/-! ## Theorems -/

/-! ### Helper lemmas -/

theorem containsSub_false_iff (s pat : List Char) :
    containsSub s pat = false ↔ afterFirst pat s = none := by
  unfold containsSub
  cases afterFirst pat s <;> simp

theorem pyIndex1_none_of {s sep : List Char} (h : containsSub s sep = false) :
    pyIndex1 sep s = none := by
  unfold pyIndex1
  rw [(containsSub_false_iff s sep).mp h]

theorem parseSuggestion_eq_none (s : List Char)
    (h : containsSub s (lstr "ERROR_TYPE:") = false ∨
         containsSub s (lstr "FILE_TO_MODIFY:") = false ∨
         containsSub s (lstr "FIX:") = false) :
    parseSuggestion s = none := by
  rcases h with h | h | h
  · simp [parseSuggestion, pyIndex1_none_of h]
  · cases h1 : pyIndex1 (lstr "ERROR_TYPE:") s <;>
      simp [parseSuggestion, h1, pyIndex1_none_of h]
  · cases h1 : pyIndex1 (lstr "ERROR_TYPE:") s <;>
      cases h2 : pyIndex1 (lstr "FILE_TO_MODIFY:") s <;>
        simp [parseSuggestion, h1, h2, pyIndex1_none_of h]

theorem apply_fix_of_parse_none {sugg : List Char}
    (hp : parseSuggestion sugg = none) (files : Files) :
    apply_fix sugg files
      = (lstr "Error applying fix: list index out of range", files) := by
  simp [apply_fix, hp]

/-- A session whose initial build fails and whose first oracle response does
not parse performs exactly one `apply_fix` invocation, leaves the files as
they were after the dependency update, and ends failed. -/
theorem first_sugg_error_session (w : World) (req : Request)
    (hp : parseSuggestion (w.suggs 0) = none)
    (hb : containsSub (run_gradle_build w.wrapperExists (w.builds 0))
            (lstr "Build succeeded") = false) :
    (fix_dependency w req).fixCalls = 1 ∧
    (fix_dependency w req).files = initialFiles w req ∧
    (fix_dependency w req).statusSuccess = false := by
  have ha := apply_fix_of_parse_none hp
  have hc : containsSub (lstr "Error applying fix: list index out of range")
      (lstr "Error applying fix") = true := by decide
  simp only [fix_dependency, hb, Bool.not_false, if_true, fixLoop]
  rw [ha]
  simp [hc, hb]

theorem fixLoop_fixCalls_le (w : World) :
    ∀ (fuel attempt : Nat) (st : LoopSt),
      (fixLoop w fuel attempt st).2.fixCalls ≤ st.fixCalls + (4 - attempt) := by
  intro fuel
  induction fuel with
  | zero => intro attempt st; simp [fixLoop]
  | succ fuel ih =>
    intro attempt st
    simp only [fixLoop]
    split
    · rename_i hle
      split
      · simp; omega
      · split
        · simp; omega
        · exact le_trans (ih (attempt + 1) _) (by simp; omega)
    · simp

/-! ### C1 -/

/-- C1: For every repair session, the number of fix attempts performed never
exceeds maxAttempts (default 3): the orchestrator loop in `fix_dependency`
invokes `apply_fix` at most 3 times before terminating, regardless of build
outcomes. -/
theorem fix_attempts_bounded (w : World) (req : Request) :
    (fix_dependency w req).fixCalls ≤ 3 := by
  simp only [fix_dependency]
  split
  · exact le_trans (fixLoop_fixCalls_le w 4 1 _) (by simp)
  · simp

/-! ### C2 -/

/-- C2: An oracle response missing any required tag (`ERROR_TYPE:`,
`FILE_TO_MODIFY:` or `FIX:`) is never coerced into an Append or ReplaceMatch
edit: `apply_fix` returns the explicit unparsable-response error
`"Error applying fix: ..."` and modifies no file, and a session receiving
such a response stops at that attempt (exactly one oracle consultation, the
files left as after the dependency update) instead of retrying. -/
theorem missing_tag_aborts_session (sugg : List Char)
    (h : containsSub sugg (lstr "ERROR_TYPE:") = false ∨
         containsSub sugg (lstr "FILE_TO_MODIFY:") = false ∨
         containsSub sugg (lstr "FIX:") = false) :
    (∀ files : Files,
        apply_fix sugg files
          = (lstr "Error applying fix: list index out of range", files)) ∧
    (∀ (w : World) (req : Request), w.suggs 0 = sugg →
        containsSub (run_gradle_build w.wrapperExists (w.builds 0))
            (lstr "Build succeeded") = false →
        (fix_dependency w req).fixCalls = 1 ∧
        (fix_dependency w req).files = initialFiles w req ∧
        (fix_dependency w req).statusSuccess = false) := by
  have hp := parseSuggestion_eq_none sugg h
  refine ⟨apply_fix_of_parse_none hp, fun w req hs hb => ?_⟩
  exact first_sugg_error_session w req (by rw [hs]; exact hp) hb

theorem missing_tag_aborts_session_witness :
    apply_fix (lstr "nothing") ⟨none, none⟩
        = (lstr "Error applying fix: list index out of range", ⟨none, none⟩) ∧
    (fix_dependency wMissingTag reqX).fixCalls = 1 ∧
    (fix_dependency wMissingTag reqX).statusSuccess = false := by
  have h := missing_tag_aborts_session (lstr "nothing") (Or.inl (by decide))
  have h2 := h.2 wMissingTag reqX rfl (by decide)
  exact ⟨h.1 _, h2.1, h2.2.2⟩

/-! ### C4 -/

/-- C4 counterexample: the parser has no sentinel short-circuit.  A response
whose fix-content field holds a no-fix sentinel but whose other tagged
fields are absent is classified as an unparsable-response error
(`"Error applying fix: ..."`), not as a distinguished NoFix result
(`"No fix applied."`), contradicting the claim that the parser
short-circuits to NoFix without requiring the other tags to resolve. -/
theorem no_fix_sentinel_not_short_circuited :
    (apply_fix (lstr "FIX: NO_FIX") ⟨none, none⟩).1
        = lstr "Error applying fix: list index out of range" ∧
    ¬ (apply_fix (lstr "FIX: NO_FIX") ⟨none, none⟩).1 = lstr "No fix applied." := by
  decide

/-- C4 amended: there is no sentinel short-circuit in the parser; a response
carrying only the no-fix sentinel in the fix-content position fails parsing
and is reported as an unparsable-response error.  A session receiving such a
response on attempt 1 (with a failing initial build) stops after exactly one
loop iteration, with zero patch (file-writing) invocations — the files stay
as after the dependency update — and a failed terminal status. -/
theorem no_fix_response_session_stops (w : World) (req : Request)
    (hs : w.suggs 0 = lstr "FIX: NO_FIX")
    (hb : containsSub (run_gradle_build w.wrapperExists (w.builds 0))
            (lstr "Build succeeded") = false) :
    (fix_dependency w req).fixCalls = 1 ∧
    (fix_dependency w req).files = initialFiles w req ∧
    (fix_dependency w req).statusSuccess = false :=
  first_sugg_error_session w req (by rw [hs]; decide) hb

theorem no_fix_response_session_stops_witness :
    (fix_dependency wNoFixResp reqX).fixCalls = 1 ∧
    (fix_dependency wNoFixResp reqX).files = initialFiles wNoFixResp reqX ∧
    (fix_dependency wNoFixResp reqX).statusSuccess = false :=
  no_fix_response_session_stops wNoFixResp reqX rfl (by decide)

/-! ### C10 -/

/-- C10: The parse-and-apply phase of `apply_fix` never propagates an
exception: its result is always one of the four return strings, and when
parsing of the three tagged fields fails the result is the string beginning
`"Error applying fix:"` and no target file is modified (parsing completes
before any write). -/
theorem apply_fix_exceptions_contained (sugg : List Char) (files : Files) :
    ((apply_fix sugg files).1 = lstr "Error applying fix: list index out of range" ∨
     (apply_fix sugg files).1 = lstr "Fix applied to build.gradle." ∨
     (apply_fix sugg files).1 = lstr "Fix applied to gradle.properties." ∨
     (apply_fix sugg files).1 = lstr "No fix applied.") ∧
    (parseSuggestion sugg = none →
      (apply_fix sugg files).1 = lstr "Error applying fix: list index out of range" ∧
      (apply_fix sugg files).2 = files) := by
  constructor
  · cases hp : parseSuggestion sugg with
    | none => simp [apply_fix, hp]
    | some t =>
      obtain ⟨et, ftm, fix⟩ := t
      simp only [apply_fix, hp]
      split
      all_goals try split
      all_goals try split
      all_goals simp
  · intro h
    simp [apply_fix_of_parse_none h files]

theorem apply_fix_exceptions_contained_witness :
    parseSuggestion (lstr "garbage") = none ∧
    (apply_fix (lstr "garbage") ⟨none, none⟩).1
        = lstr "Error applying fix: list index out of range" ∧
    (apply_fix (lstr "garbage") ⟨none, none⟩).2 = (⟨none, none⟩ : Files) :=
  ⟨by decide,
   (apply_fix_exceptions_contained (lstr "garbage") ⟨none, none⟩).2 (by decide)⟩

/-! ### C3 -/

theorem reSubImplFuel_of_no_match (repl : List Char) :
    ∀ (s : List Char) (fuel : Nat), hasImplMatch s = false →
      reSubImplFuel repl fuel s = s := by
  intro s
  induction s with
  | nil => intro fuel h; cases fuel <;> rfl
  | cons c cs ih =>
    intro fuel h
    cases fuel with
    | zero => rfl
    | succ fuel =>
      have h2 : (matchImplAt (c :: cs)).isSome = false ∧ hasImplMatch cs = false := by
        simpa [hasImplMatch] using h
      have hm : matchImplAt (c :: cs) = none := by
        cases hx : matchImplAt (c :: cs)
        · rfl
        · rw [hx] at h2; simp at h2
      simp [reSubImplFuel, hm, ih fuel h2.2]

theorem reSubImpl_of_no_match (repl s : List Char) (h : hasImplMatch s = false) :
    reSubImpl repl s = s :=
  reSubImplFuel_of_no_match repl s s.length h

/-- C3 counterexample: the substitution of the ReplaceMatch branch replaces
every non-overlapping occurrence of the pattern, not only the first.  On a
build.gradle holding two occurrences, both are replaced: the second
occurrence's text (`4.5.6`) is gone from the result, contradicting the
claim that only the first match is substituted. -/
theorem replace_match_replaces_all_occurrences :
    containsSub (lstr "implementation \"a.b:c:1.2.3\"\nimplementation \"d.e:f:4.5.6\"\n")
        (lstr "4.5.6") = true ∧
    (apply_fix suggRM filesRM).2.buildGradle = some (lstr "foo\nfoo\n") ∧
    containsSub (lstr "foo\nfoo\n") (lstr "4.5.6") = false := by
  decide

/-- C3 amended: the ReplaceMatch branch substitutes every non-overlapping
match of the pattern (not only the first), leaving the text outside the
matches untouched; when the pattern is absent the file bytes are unchanged,
but the call still returns `"Fix applied to build.gradle."` — it is reported
as an applied fix, not as `applied = false`. -/
theorem replace_match_absent_pattern_noop (sugg et fix c : List Char) (files : Files)
    (hp : parseSuggestion sugg = some (et, lstr "build.gradle", fix))
    (hf : containsSub fix (lstr "implementation") = false)
    (hb : files.buildGradle = some c)
    (hm : hasImplMatch c = false) :
    apply_fix sugg files = (lstr "Fix applied to build.gradle.", files) := by
  obtain ⟨bg, gp⟩ := files
  simp only [apply_fix, hp, if_pos rfl]
  simp only at hb
  rw [hb]
  simp [hf, reSubImpl_of_no_match fix c hm, ← hb]

theorem replace_match_absent_pattern_noop_witness :
    parseSuggestion suggRM = some (lstr "e", lstr "build.gradle", lstr "foo") ∧
    hasImplMatch (lstr "nothing here\n") = false ∧
    apply_fix suggRM filesNoop = (lstr "Fix applied to build.gradle.", filesNoop) :=
  ⟨by decide, by decide,
   replace_match_absent_pattern_noop suggRM (lstr "e") (lstr "foo")
     (lstr "nothing here\n") filesNoop (by decide) (by decide) (by decide) (by decide)⟩

/-! ### C5 -/

/-- C5: The Append action never decreases the target file's size, and
repeating the identical Append call strictly grows the file each time
(appends are not deduplicated).  Stated for both Append targets of
`apply_fix`: the gradle.properties branch, and the build.gradle branch taken
when the fix text contains `implementation`.  The appended text is always
`"\n" ++ fix ++ "\n"`, so each call grows the file by `fix.length + 2`. -/
theorem append_action_grows_file (sugg et ftm fix c : List Char) (files : Files)
    (hp : parseSuggestion sugg = some (et, ftm, fix)) :
    (ftm = lstr "gradle.properties" → files.gradleProps = some c →
      (apply_fix sugg files).2.gradleProps = some (c ++ '\n' :: (fix ++ [ '\n' ])) ∧
      c.length < (c ++ '\n' :: (fix ++ [ '\n' ])).length ∧
      (apply_fix sugg (apply_fix sugg files).2).2.gradleProps
        = some ((c ++ '\n' :: (fix ++ [ '\n' ])) ++ '\n' :: (fix ++ [ '\n' ])) ∧
      (c ++ '\n' :: (fix ++ [ '\n' ])).length
        < ((c ++ '\n' :: (fix ++ [ '\n' ])) ++ '\n' :: (fix ++ [ '\n' ])).length) ∧
    (ftm = lstr "build.gradle" → files.buildGradle = some c →
      containsSub fix (lstr "implementation") = true →
      (apply_fix sugg files).2.buildGradle = some (c ++ '\n' :: (fix ++ [ '\n' ])) ∧
      c.length < (c ++ '\n' :: (fix ++ [ '\n' ])).length ∧
      (apply_fix sugg (apply_fix sugg files).2).2.buildGradle
        = some ((c ++ '\n' :: (fix ++ [ '\n' ])) ++ '\n' :: (fix ++ [ '\n' ])) ∧
      (c ++ '\n' :: (fix ++ [ '\n' ])).length
        < ((c ++ '\n' :: (fix ++ [ '\n' ])) ++ '\n' :: (fix ++ [ '\n' ])).length) := by
  constructor
  · intro hftm hc
    obtain ⟨bg, gp⟩ := files
    subst hftm
    simp only at hc
    have hne : ¬ (lstr "gradle.properties" = lstr "build.gradle") := by decide
    refine ⟨?_, ?_, ?_, ?_⟩ <;>
      simp [apply_fix, hp, hne, hc, List.length_append]
  · intro hftm hc hfix
    obtain ⟨bg, gp⟩ := files
    subst hftm
    simp only at hc
    refine ⟨?_, ?_, ?_, ?_⟩ <;>
      simp [apply_fix, hp, hfix, hc, List.length_append]

theorem append_action_grows_file_witness :
    parseSuggestion suggAP
        = some (lstr "e", lstr "gradle.properties", lstr "foo=1") ∧
    (apply_fix suggAP filesAP).2.gradleProps
        = some (lstr "a=b\n" ++ '\n' :: (lstr "foo=1" ++ [ '\n' ])) ∧
    (apply_fix suggAP (apply_fix suggAP filesAP).2).2.gradleProps
        = some ((lstr "a=b\n" ++ '\n' :: (lstr "foo=1" ++ [ '\n' ]))
                  ++ '\n' :: (lstr "foo=1" ++ [ '\n' ])) := by
  have h := (append_action_grows_file suggAP (lstr "e") (lstr "gradle.properties")
      (lstr "foo=1") (lstr "a=b\n") filesAP (by decide)).1 rfl (by decide)
  exact ⟨by decide, h.1, h.2.2.1⟩

/-! ### C6 -/

theorem joinNLAux_append_length (t : List (List Char)) (x : List Char) :
    (joinNLAux (t ++ [x])).length = (joinNLAux t).length + 1 + x.length := by
  induction t with
  | nil => simp [joinNLAux]; omega
  | cons a t ih => simp [joinNLAux, ih]; omega

theorem joinNL_append_length (acc : List (List Char)) (x : List Char) :
    (joinNL (acc ++ [x])).length ≤ (joinNL acc).length + 1 + x.length := by
  cases acc with
  | nil => simp [joinNL, joinNLAux]
  | cons a t => simp [joinNL, joinNLAux_append_length]; omega

theorem maxLen_append_one (acc : List (List Char)) (x : List Char) :
    x.length ≤ maxLen (acc ++ [x]) := by
  induction acc with
  | nil => simp [maxLen]
  | cons a t ih =>
    simp only [List.cons_append, maxLen]
    exact le_trans ih (le_max_right _ _)

theorem accumInner_bound :
    ∀ (ms acc : List (List Char)), (joinNL acc).length ≤ 1500 →
      (joinNL (accumInner acc ms)).length ≤ 1501 + maxLen (accumInner acc ms) := by
  intro ms
  induction ms with
  | nil =>
    intro acc h
    simp only [accumInner]
    omega
  | cons m ms ih =>
    intro acc h
    simp only [accumInner]
    split
    · have h1 := joinNL_append_length acc (pyStrip m)
      have h2 := maxLen_append_one acc (pyStrip m)
      omega
    · rename_i hle
      exact ih _ (by omega)

theorem accumOuter_bound :
    ∀ (ls : List (List (List Char))) (acc : List (List Char)),
      (joinNL acc).length ≤ 1500 →
      (joinNL (accumOuter acc ls)).length ≤ 1501 + maxLen (accumOuter acc ls) := by
  intro ls
  induction ls with
  | nil =>
    intro acc h
    simp only [accumOuter]
    omega
  | cons l ls ih =>
    intro acc h
    simp only [accumOuter]
    split
    · exact accumInner_bound l acc h
    · rename_i hle
      exact ih _ (by omega)

/-- C6 amended: on the pattern-match path (at least one pattern
contributed), the excerpt's length is at most the 1500-character budget plus
one joining separator plus the length of the longest contributing (stripped)
match.  On the no-match fallback path the excerpt is the last-50-lines
snippet, which is not subject to the budget (see the counterexample). -/
theorem extractor_budget_bound (s : List Char)
    (h : accumOuter [] (matchesOf s) ≠ []) :
    (parse_gradle_error_for_llm s).length
      ≤ 1501 + maxLen (accumOuter [] (matchesOf s)) := by
  have hne : (accumOuter [] (matchesOf s)).isEmpty = false := by
    cases hx : accumOuter [] (matchesOf s) with
    | nil => exact absurd hx h
    | cons a t => rfl
  have hb := accumOuter_bound (matchesOf s) [] (by simp [joinNL])
  simp only [parse_gradle_error_for_llm, hne, Bool.false_eq_true, if_false]
  exact hb

theorem extractor_budget_bound_witness :
    accumOuter [] (matchesOf (lstr "Error: boom")) ≠ [] ∧
    (parse_gradle_error_for_llm (lstr "Error: boom")).length
      ≤ 1501 + maxLen (accumOuter [] (matchesOf (lstr "Error: boom"))) :=
  ⟨by decide, extractor_budget_bound (lstr "Error: boom") (by decide)⟩

theorem findCI_replicate_none (h : Char) (t : List Char)
    (hh : (h.toLower == Char.toLower 'a') = false) :
    ∀ n, findCI (h :: t) (List.replicate n 'a') = none := by
  intro n
  induction n with
  | zero => simp [findCI]
  | succ n ih =>
    rw [List.replicate_succ]
    have hpf : prefixOfCI (h :: t) ('a' :: List.replicate n 'a') = false := by
      show (h.toLower == Char.toLower 'a' && prefixOfCI t (List.replicate n 'a')) = false
      rw [hh, Bool.false_and]
    simp [findCI, hpf, ih]

theorem findCIM_replicate_none (h : Char) (t : List Char)
    (hh : (h.toLower == Char.toLower 'a') = false) :
    ∀ n, findCIM (h :: t) (List.replicate n 'a') = none := by
  intro n
  induction n with
  | zero => simp [findCIM]
  | succ n ih =>
    rw [List.replicate_succ]
    have hpf : prefixOfCI (h :: t) ('a' :: List.replicate n 'a') = false := by
      show (h.toLower == Char.toLower 'a' && prefixOfCI t (List.replicate n 'a')) = false
      rw [hh, Bool.false_and]
    simp [findCIM, hpf, ih]

theorem findallLit_replicate (h : Char) (t : List Char)
    (hh : (h.toLower == Char.toLower 'a') = false) :
    ∀ (fuel n : Nat), findallLit (h :: t) fuel (List.replicate n 'a') = [] := by
  intro fuel n
  cases fuel with
  | zero => rfl
  | succ fuel => simp [findallLit, findCIM_replicate_none h t hh n]

theorem findallBetween_replicate (h : Char) (t stop : List Char)
    (hh : (h.toLower == Char.toLower 'a') = false) :
    ∀ (fuel n : Nat), findallBetween (h :: t) stop fuel (List.replicate n 'a') = [] := by
  intro fuel n
  cases fuel with
  | zero => rfl
  | succ fuel => simp [findallBetween, findCI_replicate_none h t hh n]

theorem findallToBreak_replicate (h : Char) (t stop : List Char)
    (hh : (h.toLower == Char.toLower 'a') = false) :
    ∀ (fuel n : Nat), findallToBreak (h :: t) stop fuel (List.replicate n 'a') = [] := by
  intro fuel n
  cases fuel with
  | zero => rfl
  | succ fuel => simp [findallToBreak, findCI_replicate_none h t hh n]

theorem matchesOf_replicate (n : Nat) :
    matchesOf (List.replicate n 'a') = [[], [], [], [], [], []] := by
  have e1 : lstr "FAILURE: Build failed with an exception."
      = 'F' :: lstr "AILURE: Build failed with an exception." := rfl
  have e2 : lstr "* What went wrong:" = '*' :: lstr " What went wrong:" := rfl
  have e3 : lstr "Could not resolve all dependencies for configuration ':"
      = 'C' :: lstr "ould not resolve all dependencies for configuration ':" := rfl
  have e4 : lstr "Execution failed for task '"
      = 'E' :: lstr "xecution failed for task '" := rfl
  have e5 : lstr "Caused by:" = 'C' :: lstr "aused by:" := rfl
  have e6 : lstr "Error:" = 'E' :: lstr "rror:" := rfl
  unfold matchesOf
  rw [e1, e2, e3, e4, e5, e6,
      findallLit_replicate _ _ (by decide),
      findallBetween_replicate _ _ _ (by decide),
      findallBetween_replicate _ _ _ (by decide),
      findallBetween_replicate _ _ _ (by decide),
      findallToBreak_replicate _ _ _ (by decide),
      findallToBreak_replicate _ _ _ (by decide)]

theorem pySplitlinesAux_cons_a (acc rest : List Char) :
    pySplitlinesAux acc ('a' :: rest) = pySplitlinesAux ('a' :: acc) rest := by
  cases rest with
  | nil => rfl
  | cons b t => rfl

theorem pySplitlinesAux_replicate_a :
    ∀ (n : Nat) (acc : List Char), acc ≠ [] →
      pySplitlinesAux acc (List.replicate n 'a')
        = [acc.reverse ++ List.replicate n 'a'] := by
  intro n
  induction n with
  | zero =>
    intro acc h
    have he : acc.isEmpty = false := by
      cases acc with
      | nil => exact absurd rfl h
      | cons a t => rfl
    simp [pySplitlinesAux, he]
  | succ n ih =>
    intro acc h
    rw [List.replicate_succ, pySplitlinesAux_cons_a, ih ('a' :: acc) (by simp)]
    simp [List.replicate_succ]

theorem pySplitlines_replicate_a (n : Nat) :
    pySplitlines (List.replicate (n + 1) 'a') = [List.replicate (n + 1) 'a'] := by
  unfold pySplitlines
  rw [List.replicate_succ, pySplitlinesAux_cons_a,
      pySplitlinesAux_replicate_a n [ 'a' ] (by simp)]
  simp [List.replicate_succ]

/-- C6 counterexample: a 1601-character raw output matched by none of the
patterns takes the fallback path and is returned whole, so the excerpt's
length (1601) exceeds the 1500-character budget plus the longest
contributing match (there are no contributing matches at all). -/
theorem extractor_fallback_exceeds_budget :
    accumOuter [] (matchesOf (List.replicate 1601 'a')) = [] ∧
    (parse_gradle_error_for_llm (List.replicate 1601 'a')).length = 1601 ∧
    1500 < (parse_gradle_error_for_llm (List.replicate 1601 'a')).length := by
  have hacc : accumOuter [] (matchesOf (List.replicate 1601 'a')) = [] := by
    rw [matchesOf_replicate 1601]; rfl
  have hsl : pySplitlines (List.replicate 1601 'a') = [List.replicate 1601 'a'] := by
    have h := pySplitlines_replicate_a 1600
    norm_num at h
    exact h
  have hp : parse_gradle_error_for_llm (List.replicate 1601 'a')
      = List.replicate 1601 'a' := by
    simp only [parse_gradle_error_for_llm]
    rw [hacc, if_pos (show ([] : List (List Char)).isEmpty = true from rfl),
        hsl, if_neg (by norm_num)]
  have hlen : (List.replicate 1601 'a').length = 1601 := List.length_replicate 1601 'a'
  refine ⟨hacc, ?_, ?_⟩ <;> rw [hp, hlen]
  norm_num

/-! ### C7 -/

theorem joinNLAux_length_ge (l : List (List Char)) :
    l.length ≤ (joinNLAux l).length := by
  induction l with
  | nil => simp [joinNLAux]
  | cons x xs ih => simp [joinNLAux]; omega

theorem joinNL_length_ge (l : List (List Char)) :
    l.length ≤ (joinNL l).length + 1 := by
  cases l with
  | nil => simp [joinNL]
  | cons x xs =>
    have := joinNLAux_length_ge xs
    simp [joinNL]
    omega

/-- C7 counterexample: the raw output `"Caused by:\n\n"` is nonempty, yet
the extractor returns the empty excerpt for it (the `Caused by:` pattern
matches with an empty lazy group, which strips to the empty string), so the
result can be empty on a nonempty raw output. -/
theorem extractor_empty_on_nonempty_input :
    parse_gradle_error_for_llm (lstr "Caused by:\n\n") = [] ∧
    lstr "Caused by:\n\n" ≠ [] := by
  decide

/-- C7 amended: when none of the heuristic patterns matches anything, the
extractor returns exactly the last 50 lines of the output joined back with
newlines, or the whole output verbatim when it has 50 or fewer lines; the
extractor is a total function; and on this no-match path the result is
empty only when the raw output is empty.  (On the pattern-match path the
result can be empty for nonempty input when every contributing match strips
to the empty string — see the counterexample.) -/
theorem extractor_no_match_fallback (s : List Char)
    (h : matchesOf s = [[], [], [], [], [], []]) :
    parse_gradle_error_for_llm s
      = (if 50 < (pySplitlines s).length
         then joinNL ((pySplitlines s).drop ((pySplitlines s).length - 50))
         else s) ∧
    (parse_gradle_error_for_llm s = [] → s = []) := by
  have hacc : accumOuter [] (matchesOf s) = [] := by rw [h]; rfl
  have h1 : parse_gradle_error_for_llm s
      = (if 50 < (pySplitlines s).length
         then joinNL ((pySplitlines s).drop ((pySplitlines s).length - 50))
         else s) := by
    simp only [parse_gradle_error_for_llm]
    rw [hacc, if_pos (show ([] : List (List Char)).isEmpty = true from rfl)]
  refine ⟨h1, fun he => ?_⟩
  rw [h1] at he
  by_cases hl : 50 < (pySplitlines s).length
  · rw [if_pos hl] at he
    have hd : ((pySplitlines s).drop ((pySplitlines s).length - 50)).length = 50 := by
      rw [List.length_drop]
      omega
    have := joinNL_length_ge ((pySplitlines s).drop ((pySplitlines s).length - 50))
    rw [hd, he] at this
    simp at this
  · rw [if_neg hl] at he
    exact he

theorem extractor_no_match_fallback_witness :
    matchesOf (lstr "hello") = [[], [], [], [], [], []] ∧
    parse_gradle_error_for_llm (lstr "hello") = lstr "hello" := by
  have h := (extractor_no_match_fallback (lstr "hello") (by decide)).1
  rw [if_neg (by decide)] at h
  exact ⟨by decide, h⟩

/-! ### C8 -/

theorem fixLoop_fixCalls_mono (w : World) :
    ∀ (fuel attempt : Nat) (st : LoopSt),
      st.fixCalls ≤ (fixLoop w fuel attempt st).2.fixCalls := by
  intro fuel
  induction fuel with
  | zero => intro attempt st; simp [fixLoop]
  | succ fuel ih =>
    intro attempt st
    simp only [fixLoop]
    split
    · split
      · simp
      · split
        · simp
        · exact le_trans (by simp) (ih (attempt + 1) _)
    · simp

theorem fixLoop_buildResult_const (w : World) (hw : w.wrapperExists = false) :
    ∀ (fuel attempt : Nat) (st : LoopSt),
      st.buildResult = lstr "Error: Gradle wrapper not found in the repository" →
      (fixLoop w fuel attempt st).2.buildResult
        = lstr "Error: Gradle wrapper not found in the repository" := by
  intro fuel
  induction fuel with
  | zero => intro attempt st h; simpa [fixLoop] using h
  | succ fuel ih =>
    intro attempt st h
    have hbr : ∀ k, run_gradle_build w.wrapperExists (w.builds k)
        = lstr "Error: Gradle wrapper not found in the repository" := by
      intro k; simp [run_gradle_build, hw]
    simp only [fixLoop]
    split
    · split
      · simpa using h
      · rw [hbr]
        split
        · simp [hbr]
        · exact ih (attempt + 1) _ (by simp [hbr])
    · simpa using h

theorem fixLoop_fixCalls_pos (w : World) :
    ∀ (fuel attempt : Nat) (st : LoopSt), attempt ≤ 3 →
      st.fixCalls + 1 ≤ (fixLoop w (fuel + 1) attempt st).2.fixCalls := by
  intro fuel attempt st h
  simp only [fixLoop]
  rw [if_pos h]
  split
  · simp
  · split
    · simp
    · exact le_trans (by simp) (fixLoop_fixCalls_mono w fuel (attempt + 1) _)

/-- C8 counterexample: with no gradle wrapper in the repository, the
orchestrator does enter the fix-attempt loop — `apply_fix` is invoked
(here once) — contradicting the claim that a missing build entry point is
surfaced without entering the fix loop. -/
theorem missing_wrapper_fix_loop_entered_cex :
    (fix_dependency wNoWrapper reqX).fixCalls = 1 ∧
    ¬ (fix_dependency wNoWrapper reqX).fixCalls = 0 := by
  decide

/-- C8 amended: a missing gradle wrapper is not a distinguished fatal error:
`run_gradle_build` returns the plain string
`"Error: Gradle wrapper not found in the repository"`, which the
orchestrator treats like any failed build — it enters the fix-attempt loop
(at least one `apply_fix` invocation), every build of the session keeps
returning that same error string, and the session ends with failed
status. -/
theorem missing_wrapper_enters_fix_loop (w : World) (req : Request)
    (hw : w.wrapperExists = false) :
    1 ≤ (fix_dependency w req).fixCalls ∧
    (fix_dependency w req).finalBuild
      = lstr "Error: Gradle wrapper not found in the repository" ∧
    (fix_dependency w req).statusSuccess = false := by
  have hbr : ∀ k, run_gradle_build w.wrapperExists (w.builds k)
      = lstr "Error: Gradle wrapper not found in the repository" := by
    intro k; simp [run_gradle_build, hw]
  have hns : containsSub (lstr "Error: Gradle wrapper not found in the repository")
      (lstr "Build succeeded") = false := by decide
  simp only [fix_dependency]
  rw [hbr 0, hns, Bool.not_false, if_pos (rfl : (true : Bool) = true)]
  refine ⟨?_, ?_, ?_⟩
  · simpa using fixLoop_fixCalls_pos w 3 1
      { files := initialFiles w req,
        buildResult := lstr "Error: Gradle wrapper not found in the repository",
        lastFix := none, buildIdx := 1, suggIdx := 0, fixCalls := 0 }
      (by norm_num)
  · exact fixLoop_buildResult_const w hw 4 1 _ rfl
  · rw [fixLoop_buildResult_const w hw 4 1 _ rfl]
    exact hns

theorem missing_wrapper_enters_fix_loop_witness :
    wNoWrapper.wrapperExists = false ∧
    1 ≤ (fix_dependency wNoWrapper reqX).fixCalls ∧
    (fix_dependency wNoWrapper reqX).statusSuccess = false := by
  have h := missing_wrapper_enters_fix_loop wNoWrapper reqX rfl
  exact ⟨rfl, h.1, h.2.2⟩

/-! ### C9 -/

theorem udGo_eq_ugpGo (name value : List Char) :
    ∀ (ls : List (List Char)) (u : Bool),
      udGo name value ls u
        = joinAll ((ugpGo name value u ls).1
            ++ if (ugpGo name value u ls).2 then []
               else [ '\n' :: propLine name value ]) := by
  intro ls
  induction ls with
  | nil =>
    intro u
    cases u <;> simp [udGo, ugpGo, joinAll]
  | cons l ls ih =>
    intro u
    by_cases h : prefixOf (name ++ [ '=' ]) (pyStrip l) = true
    · simp [udGo, ugpGo, h, joinAll, ih true]
    · rw [Bool.not_eq_true] at h
      simp [udGo, ugpGo, h, joinAll, ih u]

/-- C9: The two property-update implementations are equivalent: for every
prior file state (existing content or absent file), property name and
value, the gradle.properties editing logic inside `update_dependency` and
the function `update_gradle_property` write identical final file
contents. -/
theorem update_property_implementations_equivalent
    (content : Option (List Char)) (name value : List Char) :
    updateDependencyProps content name value
      = update_gradle_property content name value := by
  cases content with
  | none => rfl
  | some c =>
    have h := udGo_eq_ugpGo name value (pyLines c) false
    simp only [updateDependencyProps, update_gradle_property]
    rw [h]
    cases hb : (ugpGo name value false (pyLines c)).2 <;> simp [hb]

end AutoGradle
